import Mathlib

/-
  Verification of the ticket-analysis repository against its specification.

  The embedding covers:
  * the durable storage layer declared in `backend/migrations/init.sql`
    (tables `analysis_runs` and `ticket_analysis`, their columns, the
    `DEFAULT 'completed'` on `analysis_runs.status` and the
    `UNIQUE(analysis_run_id, ticket_id)` constraint);
  * the frontend API client `frontend/src/services/api.ts`
    (the `AnalysisRun` interface and the retrying `request` helper);
  * the dashboard page (`handleToggleSelect`, `categoryData`,
    `priorityData` / `priorityChartData` chart derivations);
  * the pipeline orchestrator `Execute` and the run aggregator
    `summarize`, which live in the backend agent code (`app/agent/*`)
    that is not part of the source tree here and are therefore modelled
    from the specification, as marked in their doc comments.
-/

namespace TicketAnalysisSpec

/-! ## Storage layer: `backend/migrations/init.sql` -/

/-- Columns of the `analysis_runs` table as created by
`migrations/init.sql` (lines 13-18): `id`, `created_at`, `summary`,
`status` — and nothing else. -/
def analysisRunsColumns : List String :=
  ["id", "created_at", "summary", "status"]

/-- Columns of the `ticket_analysis` table as created by
`migrations/init.sql` (lines 21-34). -/
def ticketAnalysisColumns : List String :=
  ["id", "analysis_run_id", "ticket_id", "category", "priority",
   "notes", "analysis", "potential_causes", "suggested_solutions",
   "created_at"]

/-- Field names of the frontend `AnalysisRun` interface
(`frontend/src/services/api.ts`, lines 40-47). -/
def analysisRunInterfaceFields : List String :=
  ["id", "created_at", "summary", "total_tokens_used", "total_cost", "status"]

/-- An `analysis_runs` row (the caller-supplied columns; `id` and
`created_at` are assigned by the database). `summary` is `TEXT NOT NULL`,
so it is mandatory at creation. -/
structure AnalysisRunRow where
  summary : String
  status : String
deriving DecidableEq, Repr

/-- Inserting into `analysis_runs`: the `status` column is declared
`VARCHAR(50) DEFAULT 'completed'` (init.sql line 17), so when no status
value is supplied the row is created with status `completed`. -/
def insertAnalysisRun (summary : String) (status? : Option String) :
    AnalysisRunRow :=
  { summary := summary, status := status?.getD "completed" }

/-- A `ticket_analysis` row (the caller-supplied columns; `id` and
`created_at` are assigned by the database). -/
structure TicketAnalysisRow where
  analysis_run_id : Int
  ticket_id : Int
  category : String
  priority : String
  notes : Option String
  analysis : Option String
  potential_causes : Option String
  suggested_solutions : Option String
deriving DecidableEq, Repr

/-- The pair that `UNIQUE(analysis_run_id, ticket_id)` constrains. -/
def analysisKey (r : TicketAnalysisRow) : Int × Int :=
  (r.analysis_run_id, r.ticket_id)

/-- Whether the stored rows already contain a row with the same
`(analysis_run_id, ticket_id)` pair as `r`. -/
def pairTaken (rows : List TicketAnalysisRow) (r : TicketAnalysisRow) : Bool :=
  rows.any fun q =>
    q.analysis_run_id == r.analysis_run_id && q.ticket_id == r.ticket_id

/-- INSERT into `ticket_analysis`, honouring the
`UNIQUE(analysis_run_id, ticket_id)` constraint (init.sql line 33):
a second row for the same `(run, ticket)` pair is rejected. -/
def insertTicketAnalysis (rows : List TicketAnalysisRow)
    (r : TicketAnalysisRow) : Except String (List TicketAnalysisRow) :=
  if pairTaken rows r then .error "unique_violation"
  else .ok (rows ++ [r])

/-- A sequence of insert attempts against the table, each either accepted
or rejected by the uniqueness constraint (a rejected insert leaves the
table unchanged). -/
def commitMany (rows : List TicketAnalysisRow)
    (rs : List TicketAnalysisRow) : List TicketAnalysisRow :=
  rs.foldl (fun acc r =>
    match insertTicketAnalysis acc r with
    | .ok acc2 => acc2
    | .error _ => acc) rows

theorem pairTaken_eq_false_iff (rows : List TicketAnalysisRow)
    (r : TicketAnalysisRow) :
    pairTaken rows r = false ↔ analysisKey r ∉ rows.map analysisKey := by
  constructor
  · intro h hmem
    rcases List.mem_map.mp hmem with ⟨q, hq, hk⟩
    simp only [analysisKey, Prod.mk.injEq] at hk
    have hb : pairTaken rows r = true := by
      simp only [pairTaken, List.any_eq_true, Bool.and_eq_true, beq_iff_eq]
      exact ⟨q, hq, hk.1, hk.2⟩
    rw [h] at hb
    exact Bool.false_ne_true hb
  · intro h
    rcases hb : pairTaken rows r with _ | _
    · rfl
    · exfalso
      simp only [pairTaken, List.any_eq_true, Bool.and_eq_true, beq_iff_eq] at hb
      rcases hb with ⟨q, hq, h1, h2⟩
      exact h (List.mem_map.mpr ⟨q, hq, by simp [analysisKey, h1, h2]⟩)

theorem commitMany_keys_nodup (rs : List TicketAnalysisRow) :
    ∀ rows : List TicketAnalysisRow,
      (rows.map analysisKey).Nodup → ((commitMany rows rs).map analysisKey).Nodup := by
  induction rs with
  | nil => intro rows h; simpa [commitMany] using h
  | cons r rest ih =>
    intro rows h
    simp only [commitMany, List.foldl_cons]
    rcases hp : pairTaken rows r with _ | _
    · have hnot : analysisKey r ∉ rows.map analysisKey :=
        (pairTaken_eq_false_iff rows r).mp hp
      have h2 : ((rows ++ [r]).map analysisKey).Nodup := by
        simp only [List.map_append, List.map_cons, List.map_nil]
        exact List.Nodup.append h (List.nodup_singleton _)
          (by simpa using fun hk => hnot hk)
      simpa [commitMany, insertTicketAnalysis, hp] using ih (rows ++ [r]) h2
    · simpa [commitMany, insertTicketAnalysis, hp] using ih rows h

/-- C1: the `ticket_analysis` table admits at most one row per
`(analysis_run_id, ticket_id)` pair: inserting a row whose pair is
already present is rejected at the storage boundary (the
`UNIQUE(analysis_run_id, ticket_id)` constraint of init.sql), and after
any sequence of insert attempts starting from the empty table the stored
rows have pairwise-distinct `(analysis_run_id, ticket_id)` pairs. -/
theorem ticket_analysis_at_most_one_row_per_pair
    (rs : List TicketAnalysisRow) :
    ((commitMany [] rs).map analysisKey).Nodup ∧
    ∀ rows r, analysisKey r ∈ rows.map analysisKey →
      insertTicketAnalysis rows r = .error "unique_violation" := by
  constructor
  · exact commitMany_keys_nodup rs [] (by simp)
  · intro rows r hmem
    have hp : pairTaken rows r = true := by
      rcases h : pairTaken rows r with _ | _
      · exact absurd hmem ((pairTaken_eq_false_iff rows r).mp h)
      · rfl
    simp [insertTicketAnalysis, hp]

/-- A concrete `ticket_analysis` row used by witnesses. -/
def sampleRow : TicketAnalysisRow :=
  { analysis_run_id := 1, ticket_id := 7, category := "bug",
    priority := "high", notes := none, analysis := none,
    potential_causes := none, suggested_solutions := none }

/-- C1 (witness): committing the same row twice stores it once, and the
direct duplicate insert is rejected. -/
theorem ticket_analysis_at_most_one_row_per_pair_witness :
    ((commitMany [] [sampleRow, sampleRow]).map analysisKey).Nodup ∧
    insertTicketAnalysis [sampleRow] sampleRow = .error "unique_violation" :=
  ⟨(ticket_analysis_at_most_one_row_per_pair [sampleRow, sampleRow]).1,
   (ticket_analysis_at_most_one_row_per_pair []).2 [sampleRow] sampleRow
     (by decide)⟩

/-- C2 (counterexample): an `analysis_runs` row created without an
explicit status — the schema default path — carries status `completed`
from the moment of creation, contradicting the claim that a freshly
created run row never carries status `completed` and starts as
`pending`/`running`. -/
theorem fresh_run_row_defaults_to_completed :
    (insertAnalysisRun "" none).status = "completed" ∧
    (insertAnalysisRun "" none).status ≠ "pending" ∧
    (insertAnalysisRun "" none).status ≠ "running" := by
  decide

/-- C2 (amended): the `analysis_runs.status` column defaults to
`completed` (init.sql line 17): a run row created without an explicit
status carries status `completed`, and only a row created with an
explicitly supplied status carries that status — the storage layer does
not default a new run to `pending` or `running`. -/
theorem run_row_status_schema_default (summary : String) (st : String) :
    (insertAnalysisRun summary none).status = "completed" ∧
    (insertAnalysisRun summary (some st)).status = st := by
  constructor <;> rfl

/-- C6: the durable `analysis_runs` table created by init.sql has no
`total_tokens_used` and no `total_cost` column, while the frontend
`AnalysisRun` interface (api.ts lines 40-47) — and the README schema —
declare both fields on the run record: the usage totals of a run cannot
be stored in or retrieved from the schema the migration creates. -/
theorem analysis_runs_lacks_usage_columns :
    "total_tokens_used" ∉ analysisRunsColumns ∧
    "total_cost" ∉ analysisRunsColumns ∧
    "total_tokens_used" ∈ analysisRunInterfaceFields ∧
    "total_cost" ∈ analysisRunInterfaceFields := by
  decide

/-! ## Frontend dashboard (`src/unnamed/part_000`) -/

/-- The ticket-selection toggle of the dashboard (part_000 lines
109-115): if the id is already selected (`prev.includes(ticketId)`) it
is filtered out, otherwise it is appended at the end. -/
def handleToggleSelect (prev : List Int) (ticketId : Int) : List Int :=
  if ticketId ∈ prev then prev.filter (fun id => id != ticketId)
  else prev ++ [ticketId]

/-- C9: on a duplicate-free selection, toggling a ticket id twice
restores exactly the original membership, and toggling once flips that
id's membership while leaving every other id's membership unchanged. -/
theorem handleToggleSelect_involution (prev : List Int) (t : Int)
    (_hnd : prev.Nodup) :
    (∀ x, x ∈ handleToggleSelect (handleToggleSelect prev t) t ↔ x ∈ prev) ∧
    (t ∈ handleToggleSelect prev t ↔ t ∉ prev) ∧
    (∀ x, x ≠ t → (x ∈ handleToggleSelect prev t ↔ x ∈ prev)) := by
  by_cases hmem : t ∈ prev
  · have h1 : handleToggleSelect prev t = prev.filter (fun id => id != t) := by
      simp [handleToggleSelect, hmem]
    have hnot : t ∉ prev.filter (fun id => id != t) := by
      simp [List.mem_filter]
    have h2 : handleToggleSelect (handleToggleSelect prev t) t
        = prev.filter (fun id => id != t) ++ [t] := by
      rw [h1]
      simp [handleToggleSelect, hnot]
    refine ⟨?_, ?_, ?_⟩
    · intro x
      rw [h2]
      simp only [List.mem_append, List.mem_filter, List.mem_singleton,
        bne_iff_ne, ne_eq, decide_eq_true_eq]
      constructor
      · rintro (⟨hx, _⟩ | rfl)
        · exact hx
        · exact hmem
      · intro hx
        by_cases hxt : x = t
        · exact Or.inr hxt
        · exact Or.inl ⟨hx, by simpa using hxt⟩
    · rw [h1]
      simp [List.mem_filter, hmem]
    · intro x hx
      rw [h1]
      simp only [List.mem_filter, bne_iff_ne, ne_eq, decide_eq_true_eq]
      constructor
      · exact fun h => h.1
      · exact fun h => ⟨h, by simpa using hx⟩
  · have h1 : handleToggleSelect prev t = prev ++ [t] := by
      simp [handleToggleSelect, hmem]
    have hmem2 : t ∈ prev ++ [t] := by simp
    have h2 : handleToggleSelect (handleToggleSelect prev t) t
        = (prev ++ [t]).filter (fun id => id != t) := by
      rw [h1]
      simp [handleToggleSelect, hmem2]
    have h3 : (prev ++ [t]).filter (fun id => id != t) = prev := by
      rw [List.filter_append]
      have hl : prev.filter (fun id => id != t) = prev :=
        List.filter_eq_self.mpr (fun a ha => by
          simp only [bne_iff_ne, ne_eq, decide_eq_true_eq]
          exact fun h => hmem (h ▸ ha))
      have hr : ([t] : List Int).filter (fun id => id != t) = [] := by simp
      rw [hl, hr, List.append_nil]
    refine ⟨?_, ?_, ?_⟩
    · intro x
      rw [h2, h3]
    · rw [h1]
      simp [hmem]
    · intro x hx
      rw [h1]
      simp only [List.mem_append, List.mem_singleton]
      constructor
      · rintro (h | rfl)
        · exact h
        · exact absurd rfl hx
      · exact fun h => Or.inl h

/-- C9 (witness): toggling id 2 on the duplicate-free selection [1, 2]
removes it, so its membership flips. -/
theorem handleToggleSelect_involution_witness :
    (2 : Int) ∈ handleToggleSelect [1, 2] 2 ↔ (2 : Int) ∉ [(1 : Int), 2] :=
  (handleToggleSelect_involution [1, 2] 2 (by decide)).2.1

/-! ## Chart derivations of the dashboard (part_000 lines 148-175)

The JS `reduce` builds a plain object used as a frequency map; its keys
keep first-insertion order.  It is embedded as an association list with
the same ordering behaviour. -/

/-- Keys of the association list standing for a JS object. -/
def accKeys (acc : List (String × Nat)) : List String := acc.map Prod.fst

/-- One step of the JS `reduce`: `acc[k] = (acc[k] || 0) + 1` — bump the
entry for key `k` in place if present, otherwise append `(k, 1)` at the
end (a new JS object key goes last). -/
def bump (acc : List (String × Nat)) (k : String) : List (String × Nat) :=
  if k ∈ accKeys acc then
    acc.map (fun p => if p.1 = k then (p.1, p.2 + 1) else p)
  else acc ++ [(k, 1)]

/-- Count associated with key `k` (`acc[k] || 0`): value at the first
entry carrying the key, 0 when absent. -/
def lookupCount : List (String × Nat) → String → Nat
  | [], _ => 0
  | p :: rest, k => if p.1 = k then p.2 else lookupCount rest k

/-- The frontend `TicketAnalysis` interface
(`frontend/src/services/api.ts`, lines 27-38). -/
structure TicketAnalysisView where
  id : Int
  analysis_run_id : Int
  ticket_id : Int
  category : String
  priority : String
  notes : Option String
  analysis : Option String
  potential_causes : Option String
  suggested_solutions : Option String
  created_at : String
deriving DecidableEq, Repr

/-- JS `String.prototype.replace` with a string pattern replaces only
the first occurrence: replace the first `'_'` of the string by `' '`. -/
def replaceFirstChar (c d : Char) : List Char → List Char
  | [] => []
  | x :: xs => if x = c then d :: xs else x :: replaceFirstChar c d xs

/-- `category.replace('_', ' ')` (part_000 line 150). -/
def normalizeCategory (s : String) : String :=
  String.mk (replaceFirstChar '_' ' ' s.data)

/-- `categoryData` (part_000 lines 148-154): frequency object over the
underscore-normalized categories of the ticket analyses. -/
def categoryData (analyses : List TicketAnalysisView) : List (String × Nat) :=
  analyses.foldl (fun acc a => bump acc (normalizeCategory a.category)) []

theorem lookupCount_map_bump (j k : String) :
    ∀ acc : List (String × Nat),
      lookupCount (acc.map (fun p => if p.1 = j then (p.1, p.2 + 1) else p)) k
        = lookupCount acc k + (if k = j ∧ k ∈ accKeys acc then 1 else 0)
  | [] => by simp [lookupCount, accKeys]
  | p :: rest => by
    have ih := lookupCount_map_bump j k rest
    by_cases hpk : p.1 = k
    · by_cases hkj : k = j
      · have hpj : p.1 = j := by rw [hpk, hkj]
        simp [lookupCount, accKeys, hpk, hpj, hkj]
      · have hpj : p.1 ≠ j := by rw [hpk]; exact hkj
        simp [lookupCount, accKeys, hpk, hpj, hkj]
    · have hfst : ((if p.1 = j then (p.1, p.2 + 1) else p) : String × Nat).1 = p.1 := by
        by_cases hpj : p.1 = j <;> simp [hpj]
      have hmk : (k ∈ accKeys (p :: rest)) ↔ (k ∈ accKeys rest) := by
        simp only [accKeys, List.map_cons, List.mem_cons]
        constructor
        · rintro (h | h)
          · exact absurd h.symm hpk
          · exact h
        · exact Or.inr
      simp only [List.map_cons, lookupCount, hfst, if_neg hpk]
      rw [ih]
      congr 1
      by_cases hkj : k = j
      · subst hkj
        simp [hmk]
      · simp [hkj]

theorem lookupCount_append_one (j k : String) :
    ∀ acc : List (String × Nat),
      lookupCount (acc ++ [(j, 1)]) k
        = lookupCount acc k + (if k = j ∧ k ∉ accKeys acc then 1 else 0)
  | [] => by
    by_cases hkj : k = j
    · simp [lookupCount, accKeys, hkj]
    · have hjk : ¬(j = k) := fun h => hkj h.symm
      simp [lookupCount, accKeys, hkj, hjk]
  | p :: rest => by
    have ih := lookupCount_append_one j k rest
    by_cases hpk : p.1 = k
    · have hk1 : k ∈ accKeys (p :: rest) := by
        simp [accKeys, hpk.symm]
      simp [lookupCount, hpk, hk1]
    · have hmk : (k ∈ accKeys (p :: rest)) ↔ (k ∈ accKeys rest) := by
        simp only [accKeys, List.map_cons, List.mem_cons]
        constructor
        · rintro (h | h)
          · exact absurd h.symm hpk
          · exact h
        · exact Or.inr
      simp only [List.cons_append, lookupCount, if_neg hpk, List.append_eq]
      rw [ih]
      congr 1
      by_cases hkj : k = j
      · subst hkj
        simp [hmk]
      · simp [hkj]

theorem lookupCount_bump (acc : List (String × Nat)) (j k : String) :
    lookupCount (bump acc j) k
      = lookupCount acc k + (if k = j then 1 else 0) := by
  by_cases hj : j ∈ accKeys acc
  · rw [show bump acc j
        = acc.map (fun p => if p.1 = j then (p.1, p.2 + 1) else p) by
      simp [bump, hj]]
    rw [lookupCount_map_bump]
    congr 1
    by_cases hkj : k = j
    · subst hkj
      simp [hj]
    · simp [hkj]
  · rw [show bump acc j = acc ++ [(j, 1)] by simp [bump, hj]]
    rw [lookupCount_append_one]
    congr 1
    by_cases hkj : k = j
    · subst hkj
      simp [hj]
    · simp [hkj]

theorem foldl_bump_count (l : List String) :
    ∀ acc : List (String × Nat), ∀ k,
      lookupCount (l.foldl bump acc) k = lookupCount acc k + l.count k := by
  induction l with
  | nil => intro acc k; simp
  | cons x rest ih =>
    intro acc k
    simp only [List.foldl_cons, List.count_cons]
    rw [ih (bump acc x) k, lookupCount_bump acc x k]
    by_cases h : k = x
    · subst h
      rw [if_pos rfl, if_pos (beq_self_eq_true k)]
      omega
    · have hxk : ¬((x == k) = true) := fun hb => h (beq_iff_eq.mp hb).symm
      rw [if_neg h, if_neg hxk]
      omega

/-- A ticket analysis whose category contains an underscore, used to
separate `categoryData` from the plain frequency map. -/
def underscoreAnalysis : TicketAnalysisView :=
  { id := 1, analysis_run_id := 1, ticket_id := 1,
    category := "feature_request", priority := "high", notes := none,
    analysis := none, potential_causes := none,
    suggested_solutions := none, created_at := "" }

/-- C7 (counterexample): the category `feature_request` occurs once, yet
`categoryData` holds no entry for it — the count lives under the
normalized key `feature request`, because `analysis.category.replace`
rewrites the first underscore to a space before counting. -/
theorem categoryData_not_exact_frequency :
    ([underscoreAnalysis].map (fun a => a.category)).count "feature_request" = 1 ∧
    lookupCount (categoryData [underscoreAnalysis]) "feature_request" = 0 ∧
    categoryData [underscoreAnalysis] = [("feature request", 1)] := by
  decide

/-- First bug analysis of the C7 scenario. -/
def bugAnalysis1 : TicketAnalysisView :=
  { underscoreAnalysis with id := 1, ticket_id := 1, category := "bug" }

/-- Second bug analysis of the C7 scenario. -/
def bugAnalysis2 : TicketAnalysisView :=
  { underscoreAnalysis with id := 2, ticket_id := 2, category := "bug" }

/-- Feature-request analysis of the C7 scenario. -/
def featureAnalysis : TicketAnalysisView :=
  { underscoreAnalysis with id := 3, ticket_id := 3, category := "feature-request" }

/-- C7 (amended): `categoryData` is the exact frequency map of the
underscore-normalized categories (`category.replace('_', ' ')`, which
replaces only the first underscore); for categories containing no
underscore this coincides with the plain frequency map, so for the
3-ticket batch with categories bug, bug, feature-request the counts are
exactly bug ↦ 2 and feature-request ↦ 1 over 3 analyses. -/
theorem categoryData_counts_normalized_categories :
    (∀ (analyses : List TicketAnalysisView) (k : String),
      lookupCount (categoryData analyses) k
        = (analyses.map (fun a => normalizeCategory a.category)).count k) ∧
    categoryData [bugAnalysis1, bugAnalysis2, featureAnalysis]
      = [("bug", 2), ("feature-request", 1)] ∧
    [bugAnalysis1, bugAnalysis2, featureAnalysis].length = 3 := by
  refine ⟨?_, by decide, rfl⟩
  intro analyses k
  have h := foldl_bump_count
    (analyses.map (fun a => normalizeCategory a.category)) [] k
  rw [List.foldl_map] at h
  simpa [categoryData, lookupCount] using h

/-- One bar of the recharts data (part_000 lines 169-171): a name and a
count. -/
structure ChartEntry where
  name : String
  count : Nat
deriving DecidableEq, Repr

/-- `priorityData` (part_000 lines 161-167): frequency object over the
raw priorities of the ticket analyses. -/
def priorityData (analyses : List TicketAnalysisView) : List (String × Nat) :=
  analyses.foldl (fun acc a => bump acc a.priority) []

/-- `name.charAt(0).toUpperCase() + name.slice(1)` (part_000 line 170). -/
def capitalize (s : String) : String :=
  match s.data with
  | [] => ""
  | c :: cs => String.mk (c.toUpper :: cs)

/-- The `order` weight map of the sort comparator (part_000 line 173):
High 3, Medium 2, Low 1, and `order[name] || 0` gives any other name
weight 0. -/
def priorityWeight (name : String) : Nat :=
  if name = "High" then 3
  else if name = "Medium" then 2
  else if name = "Low" then 1
  else 0

/-- `priorityChartData` (part_000 lines 169-175): capitalize each
priority name, then sort by descending weight — the JS comparator
`(order[b.name] || 0) - (order[a.name] || 0)` orders entries by
nonincreasing weight. -/
def priorityChartData (analyses : List TicketAnalysisView) : List ChartEntry :=
  List.insertionSort (fun a b => priorityWeight b.name ≤ priorityWeight a.name)
    ((priorityData analyses).map (fun p => { name := capitalize p.1, count := p.2 }))

/-- C10: the priority chart data is ordered by nonincreasing priority
weight — with High weighted 3, Medium 2, Low 1 — so every High entry
precedes every Medium entry, which precedes every Low entry, and any
entry whose capitalized name is none of High/Medium/Low has weight 0 and
is ordered after all recognized priorities. -/
theorem priorityChartData_sorted_by_weight (analyses : List TicketAnalysisView) :
    (priorityChartData analyses).Pairwise
      (fun a b => priorityWeight b.name ≤ priorityWeight a.name) ∧
    priorityWeight "High" = 3 ∧ priorityWeight "Medium" = 2 ∧
    priorityWeight "Low" = 1 ∧
    (∀ s, s ≠ "High" → s ≠ "Medium" → s ≠ "Low" → priorityWeight s = 0) := by
  refine ⟨?_, rfl, rfl, rfl, ?_⟩
  · haveI htot : IsTotal ChartEntry
        (fun a b => priorityWeight b.name ≤ priorityWeight a.name) :=
      ⟨fun a b => Nat.le_total (priorityWeight b.name) (priorityWeight a.name)⟩
    haveI htrans : IsTrans ChartEntry
        (fun a b => priorityWeight b.name ≤ priorityWeight a.name) :=
      ⟨fun _ _ _ hab hbc => le_trans hbc hab⟩
    exact List.sorted_insertionSort _ _
  · intro s h1 h2 h3
    simp [priorityWeight, h1, h2, h3]

/-- C10 (witness): for the priorities high, low, medium the chart is
[High, Medium, Low], and an unrecognized name has weight 0. -/
theorem priorityChartData_sorted_by_weight_witness :
    (priorityChartData [underscoreAnalysis]).Pairwise
      (fun a b => priorityWeight b.name ≤ priorityWeight a.name) ∧
    priorityWeight "Critical" = 0 :=
  ⟨(priorityChartData_sorted_by_weight [underscoreAnalysis]).1,
   (priorityChartData_sorted_by_weight []).2.2.2.2 "Critical"
     (by decide) (by decide) (by decide)⟩

/-! ## The retrying API request helper
(`frontend/src/services/api.ts`, `ApiService.request`, lines 61-104) -/

/-- The result of one `fetch` attempt as `request` observes it: either a
parsed response value, or an error carrying whether it was a JS
`TypeError` (a network failure) and its message (a non-OK HTTP response
is thrown as an `Error` whose message mentions the status code). -/
inductive FetchOutcome where
  | ok (value : String)
  | err (isTypeError : Bool) (message : String)
deriving DecidableEq, Repr

/-- Whether `pat` is a prefix of the character list. -/
def charsPrefix : List Char → List Char → Bool
  | [], _ => true
  | _ :: _, [] => false
  | c :: cs, d :: ds => c == d && charsPrefix cs ds

/-- Whether `pat` occurs as a contiguous substring of the list. -/
def charsContain (pat : List Char) : List Char → Bool
  | [] => charsPrefix pat []
  | c :: cs => charsPrefix pat (c :: cs) || charsContain pat cs

/-- `error.message.includes('503')`: the message contains "503". -/
def msgHas503 (m : String) : Bool :=
  charsContain "503".data m.data

/-- The retry condition of `request` (api.ts line 93):
`error instanceof TypeError || error.message.includes('503')`. -/
def isTransient (isTypeError : Bool) (m : String) : Bool :=
  isTypeError || msgHas503 m

/-- What one call to `request` did: its result, how many attempts were
made, and the backoff delays (in ms) slept between attempts. -/
structure RequestTrace where
  result : Except (Bool × String) String
  attemptsMade : Nat
  delays : List Nat
deriving Repr

/-- The `for (let attempt = 0; attempt < retries; attempt++)` loop of
`request`, with the number of loop iterations still available as fuel:
try `fetch`; on success return; on error retry — after sleeping
`500 * (attempt + 1)` ms — only while `attempt < retries - 1` and the
error is transient, otherwise break and rethrow the last error. -/
def requestLoop (fetch : Nat → FetchOutcome) (retries : Nat) :
    Nat → Nat → List Nat → RequestTrace
  | _, 0, delays => ⟨.error (false, "Unknown error"), 0, delays⟩
  | attempt, fuel + 1, delays =>
    match fetch attempt with
    | .ok v => ⟨.ok v, attempt + 1, delays⟩
    | .err te m =>
      if attempt < retries - 1 ∧ isTransient te m = true then
        requestLoop fetch retries (attempt + 1) fuel
          (delays ++ [500 * (attempt + 1)])
      else ⟨.error (te, m), attempt + 1, delays⟩

/-- `ApiService.request` with a given retry budget (the parameter
defaults to 3 at every call site); with a zero budget the loop body
never runs and the fallback `Unknown error` is thrown. -/
def request (fetch : Nat → FetchOutcome) (retries : Nat) : RequestTrace :=
  requestLoop fetch retries 0 retries []

/-- C4: with the default budget of 3, a `request` makes at most 3
attempts; the backoff delays slept between successive attempts are
exactly 500·2^k ms for k = 0, 1, … (exponential — for the at most two
backoffs that can occur, the code's `500 * (attempt + 1)` equals
`500 * 2 ^ attempt`); an attempt k+1 happens only if attempt k failed
with a transient error (a TypeError or a message containing 503); and a
non-transient failure at any reached attempt ends the call immediately
with that error and no further attempt. -/
theorem request_retry_policy (fetch : Nat → FetchOutcome) :
    (request fetch 3).attemptsMade ≤ 3 ∧
    (request fetch 3).delays
      = (List.range ((request fetch 3).attemptsMade - 1)).map
          (fun k => 500 * 2 ^ k) ∧
    (∀ k, k + 1 < (request fetch 3).attemptsMade →
      ∃ te m, fetch k = .err te m ∧ isTransient te m = true) ∧
    (∀ k te m, fetch k = .err te m → isTransient te m = false →
      k < (request fetch 3).attemptsMade →
      (request fetch 3).attemptsMade = k + 1 ∧
      (request fetch 3).result = .error (te, m)) := by
  rcases h0 : fetch 0 with v0 | ⟨te0, m0⟩
  · have hr : request fetch 3 = ⟨.ok v0, 1, []⟩ := by
      simp [request, requestLoop, h0]
    have hA : (request fetch 3).attemptsMade = 1 := by rw [hr]
    refine ⟨by rw [hA]; omega, by rw [hr]; rfl, ?_, ?_⟩
    · intro k hk
      rw [hA] at hk
      omega
    · intro k te m hke _ hklt
      rw [hA] at hklt
      have hk0 : k = 0 := by omega
      subst hk0
      rw [h0] at hke
      cases hke
  · rcases ht0 : isTransient te0 m0 with _ | _
    · have hr : request fetch 3 = ⟨.error (te0, m0), 1, []⟩ := by
        simp [request, requestLoop, h0, ht0]
      have hA : (request fetch 3).attemptsMade = 1 := by rw [hr]
      refine ⟨by rw [hA]; omega, by rw [hr]; rfl, ?_, ?_⟩
      · intro k hk
        rw [hA] at hk
        omega
      · intro k te m hke _ hklt
        rw [hA] at hklt
        have hk0 : k = 0 := by omega
        subst hk0
        rw [h0] at hke
        cases hke
        rw [hr]
        exact ⟨rfl, rfl⟩
    · rcases h1 : fetch 1 with v1 | ⟨te1, m1⟩
      · have hr : request fetch 3 = ⟨.ok v1, 2, [500]⟩ := by
          simp [request, requestLoop, h0, ht0, h1]
        have hA : (request fetch 3).attemptsMade = 2 := by rw [hr]
        refine ⟨by rw [hA]; omega, by rw [hr]; rfl, ?_, ?_⟩
        · intro k hk
          rw [hA] at hk
          have hk0 : k = 0 := by omega
          subst hk0
          exact ⟨te0, m0, h0, ht0⟩
        · intro k te m hke hnt hklt
          rw [hA] at hklt
          have hk1 : k ≤ 1 := by omega
          interval_cases k
          · rw [h0] at hke
            cases hke
            rw [ht0] at hnt
            cases hnt
          · rw [h1] at hke
            cases hke
      · rcases ht1 : isTransient te1 m1 with _ | _
        · have hr : request fetch 3 = ⟨.error (te1, m1), 2, [500]⟩ := by
            simp [request, requestLoop, h0, ht0, h1, ht1]
          have hA : (request fetch 3).attemptsMade = 2 := by rw [hr]
          refine ⟨by rw [hA]; omega, by rw [hr]; rfl, ?_, ?_⟩
          · intro k hk
            rw [hA] at hk
            have hk0 : k = 0 := by omega
            subst hk0
            exact ⟨te0, m0, h0, ht0⟩
          · intro k te m hke hnt hklt
            rw [hA] at hklt
            have hk1 : k ≤ 1 := by omega
            interval_cases k
            · rw [h0] at hke
              cases hke
              rw [ht0] at hnt
              cases hnt
            · rw [h1] at hke
              cases hke
              rw [hr]
              exact ⟨rfl, rfl⟩
        · rcases h2 : fetch 2 with v2 | ⟨te2, m2⟩
          · have hr : request fetch 3 = ⟨.ok v2, 3, [500, 1000]⟩ := by
              simp [request, requestLoop, h0, ht0, h1, ht1, h2]
            have hA : (request fetch 3).attemptsMade = 3 := by rw [hr]
            refine ⟨by rw [hA], by rw [hr]; rfl, ?_, ?_⟩
            · intro k hk
              rw [hA] at hk
              have hk1 : k ≤ 1 := by omega
              interval_cases k
              · exact ⟨te0, m0, h0, ht0⟩
              · exact ⟨te1, m1, h1, ht1⟩
            · intro k te m hke hnt hklt
              rw [hA] at hklt
              have hk2 : k ≤ 2 := by omega
              interval_cases k
              · rw [h0] at hke
                cases hke
                rw [ht0] at hnt
                cases hnt
              · rw [h1] at hke
                cases hke
                rw [ht1] at hnt
                cases hnt
              · rw [h2] at hke
                cases hke
          · have hr : request fetch 3 = ⟨.error (te2, m2), 3, [500, 1000]⟩ := by
              simp [request, requestLoop, h0, ht0, h1, ht1, h2]
            have hA : (request fetch 3).attemptsMade = 3 := by rw [hr]
            refine ⟨by rw [hA], by rw [hr]; rfl, ?_, ?_⟩
            · intro k hk
              rw [hA] at hk
              have hk1 : k ≤ 1 := by omega
              interval_cases k
              · exact ⟨te0, m0, h0, ht0⟩
              · exact ⟨te1, m1, h1, ht1⟩
            · intro k te m hke hnt hklt
              rw [hA] at hklt
              have hk2 : k ≤ 2 := by omega
              interval_cases k
              · rw [h0] at hke
                cases hke
                rw [ht0] at hnt
                cases hnt
              · rw [h1] at hke
                cases hke
                rw [ht1] at hnt
                cases hnt
              · rw [h2] at hke
                cases hke
                rw [hr]
                exact ⟨rfl, rfl⟩

/-- A fetch that always fails with a non-transient error (an HTTP 400
thrown as a plain Error). -/
def alwaysBadRequest : Nat → FetchOutcome :=
  fun _ => .err false "HTTP error! status: 400"

/-- C4 (witness): a non-transient failure on the first attempt ends the
request after exactly one attempt with that error. -/
theorem request_retry_policy_witness :
    (request alwaysBadRequest 3).attemptsMade = 1 ∧
    (request alwaysBadRequest 3).result
      = .error (false, "HTTP error! status: 400") :=
  (request_retry_policy alwaysBadRequest).2.2.2 0 false
    "HTTP error! status: 400" rfl (by decide) (by decide)

/-! ## Pipeline orchestrator and run aggregator (modelled from the spec)

The backend agent (`backend/app/agent/graph.py`, `nodes.py`,
`db_service.py` in the README's layout) is not part of this source
tree — only the schema it writes and the frontend that calls it are.
The definitions below are modelled from the specification (§3, §4.1,
§4.3, §6, §8). -/

/-- Modelled from the spec: a support ticket as the pipeline reads it
(§3) — the backend ticket model itself is missing from the tree. -/
structure Ticket where
  id : Int
  title : String
  description : String
  status : String
  tags : Option String
deriving DecidableEq, Repr

/-- Modelled from the spec: per-call usage accounting returned by a
successful classification (§6, Classifier Client). -/
structure Usage where
  tokensUsed : Nat
  cost : ℚ
deriving DecidableEq, Repr

/-- Modelled from the spec: the fields of a successful classification
(§6, Classifier Client contract). -/
structure SuccessData where
  ticketId : Int
  category : String
  priority : String
  explanation : String
  causes : List String
  solutions : List String
  confidence : ℚ
  usage : Usage
deriving DecidableEq, Repr

/-- Modelled from the spec: a `ClassificationOutcome` (§3) — success
with analysis fields and usage, or failure with ticket id, error kind
and message. -/
inductive ClassificationOutcome where
  | success (d : SuccessData)
  | failure (ticketId : Int) (kind : String) (message : String)
deriving DecidableEq, Repr

/-- The successful outcomes, in input order. -/
def successes (os : List ClassificationOutcome) : List SuccessData :=
  os.filterMap fun o =>
    match o with
    | .success d => some d
    | .failure _ _ _ => none

/-- Modelled from the spec: the `RunSummary` the Run Aggregator computes
(§3): counts-by-category, counts-by-priority, average confidence,
narrative, tickets attempted and failed. -/
structure RunSummary where
  countsByCategory : String → Nat
  countsByPriority : String → Nat
  averageConfidence : ℚ
  narrative : String
  totalAttempted : Nat
  totalFailed : Nat

/-- Modelled from the spec: `RunAggregator.summarize` (§4.3) — partition
outcomes into successes and failures, tally category and priority
frequencies over successes, average confidence over successes (0 with
no successes), and compose the narrative deterministically from the
tallies. -/
def summarize (os : List ClassificationOutcome) : RunSummary :=
  let ss := successes os
  { countsByCategory := fun c => (ss.map (fun d => d.category)).count c
    countsByPriority := fun p => (ss.map (fun d => d.priority)).count p
    averageConfidence :=
      if ss.length = 0 then 0
      else (ss.map (fun d => d.confidence)).sum / (ss.length : ℚ)
    narrative :=
      "Analyzed " ++ toString ss.length ++ " of " ++ toString os.length
        ++ " tickets. " ++ toString (os.length - ss.length) ++ " failed."
    totalAttempted := os.length
    totalFailed := os.length - ss.length }

/-- C8: the run aggregation is a pure, deterministic function of the
outcome set: two outcome lists holding the same outcomes (in any order)
summarize to identical RunSummary values — same counts-by-category,
counts-by-priority, average confidence and narrative — so evaluating it
twice on the same input trivially yields byte-identical summaries, with
no dependence on anything but the outcomes. -/
theorem summarize_pure_function_of_outcome_set
    (xs ys : List ClassificationOutcome) (h : xs.Perm ys) :
    summarize xs = summarize ys := by
  have hs : (successes xs).Perm (successes ys) := h.filterMap _
  have hlen : (successes xs).length = (successes ys).length := hs.length_eq
  have hlenAll : xs.length = ys.length := h.length_eq
  have hcat : ∀ c, ((successes xs).map (fun d => d.category)).count c
      = ((successes ys).map (fun d => d.category)).count c :=
    fun c => (hs.map (fun d => d.category)).count_eq c
  have hpri : ∀ p, ((successes xs).map (fun d => d.priority)).count p
      = ((successes ys).map (fun d => d.priority)).count p :=
    fun p => (hs.map (fun d => d.priority)).count_eq p
  have hsum : ((successes xs).map (fun d => d.confidence)).sum
      = ((successes ys).map (fun d => d.confidence)).sum :=
    (hs.map (fun d => d.confidence)).sum_eq
  simp only [summarize, RunSummary.mk.injEq]
  refine ⟨funext hcat, funext hpri, ?_, ?_, hlenAll, ?_⟩
  · rw [hlen, hsum]
  · rw [hlen, hlenAll]
  · rw [hlen, hlenAll]

/-- A concrete successful outcome used by witnesses. -/
def outcomeA : ClassificationOutcome :=
  .success { ticketId := 1, category := "bug", priority := "high",
             explanation := "", causes := [], solutions := [],
             confidence := 1, usage := { tokensUsed := 10, cost := 0 } }

/-- A concrete failed outcome used by witnesses. -/
def outcomeB : ClassificationOutcome :=
  .failure 2 "Timeout" "timed out"

/-- C8 (witness): the two orders of the same two-outcome set summarize
identically. -/
theorem summarize_pure_function_of_outcome_set_witness :
    summarize [outcomeA, outcomeB] = summarize [outcomeB, outcomeA] :=
  summarize_pure_function_of_outcome_set _ _ (List.Perm.swap _ _ _)

/-- Modelled from the spec: the run record `Execute` produces and the
Run Store persists — final status, summary, and the per-ticket analyses
of the successful outcomes (§4.1, §6). -/
structure RunRecord where
  status : String
  summary : RunSummary
  analyses : List SuccessData

/-- Modelled from the spec: the classified run-level errors (§7). -/
inductive ExecuteError where
  | invalidInput
  | executionError
  | persistenceError
deriving DecidableEq, Repr

/-- Modelled from the spec: the Validating stage (§4.1 step 1) — when
ticket ids are supplied, every one must resolve to an existing ticket;
an omitted parameter validates trivially. -/
def validateIds (store : List Ticket) : Option (List Int) → Bool
  | none => true
  | some ids => ids.all fun i => store.any fun t => t.id == i

/-- Modelled from the spec: ticket selection (§4.1) — an omitted
parameter selects all tickets, a supplied list selects exactly the
tickets whose id is listed. -/
def selectTickets (store : List Ticket) : Option (List Int) → List Ticket
  | none => store
  | some ids => store.filter fun t => ids.contains t.id

/-- Modelled from the spec: `Execute` (§4.1) — validate (failing the
whole invocation with InvalidInput before any run row is created),
select, classify each selected ticket, aggregate, and persist one run
record; a batch with zero successes out of a nonempty batch is marked
failed, otherwise the run completes (§4.3 edge case); zero selected
tickets is not an error. The run-store state is the list of persisted
run records. -/
def execute (store : List Ticket)
    (classify : Ticket → ClassificationOutcome)
    (ticketIds : Option (List Int)) (runs : List RunRecord) :
    Except ExecuteError RunRecord × List RunRecord :=
  if validateIds store ticketIds = false then
    (.error .invalidInput, runs)
  else
    let selected := selectTickets store ticketIds
    let outcomes := selected.map classify
    let ss := successes outcomes
    let st := if selected.length ≠ 0 ∧ ss.length = 0 then "failed"
              else "completed"
    let run : RunRecord :=
      { status := st, summary := summarize outcomes, analyses := ss }
    (.ok run, runs ++ [run])

/-- `analyzeTickets` (api.ts lines 126-131): the request body field
`ticket_ids` is `ticketIds || null` — an array, even an empty one, is
truthy in JS and is sent as-is; only an omitted parameter becomes
`null`. -/
def analyzeTicketsBody : Option (List Int) → Option (List Int)
  | some ids => some ids
  | none => none

/-- C3: whenever the supplied ticket-id list contains an id no stored
ticket carries, `Execute` returns the classified error InvalidInput and
the run-store state is unchanged — no run record is created. -/
theorem execute_unknown_id_no_run
    (store : List Ticket) (classify : Ticket → ClassificationOutcome)
    (ids : List Int) (runs : List RunRecord)
    (h : ∃ i ∈ ids, ∀ t ∈ store, t.id ≠ i) :
    execute store classify (some ids) runs
      = (.error .invalidInput, runs) := by
  have hv : validateIds store (some ids) = false := by
    rcases hb : validateIds store (some ids) with _ | _
    · rfl
    · exfalso
      rcases h with ⟨i, hi, hall⟩
      simp only [validateIds, List.all_eq_true] at hb
      have := hb i hi
      simp only [List.any_eq_true, beq_iff_eq] at this
      rcases this with ⟨t, ht, hid⟩
      exact hall t ht hid
  simp [execute, hv]

/-- A concrete ticket used by witnesses. -/
def ticketW : Ticket :=
  { id := 1, title := "Login broken", description := "Mobile login fails",
    status := "open", tags := none }

/-- A concrete classifier standing in for the external call. -/
def classifyW : Ticket → ClassificationOutcome :=
  fun t => .failure t.id "Timeout" "timed out"

/-- C3 (witness): Execute([999]) against a store holding only ticket 1
returns InvalidInput and leaves the run store empty. -/
theorem execute_unknown_id_no_run_witness :
    execute [ticketW] classifyW (some [999]) []
      = (.error .invalidInput, []) :=
  execute_unknown_id_no_run [ticketW] classifyW [999] []
    ⟨999, by decide, by decide⟩

/-- C5: with a nonempty ticket store, Execute with an explicitly empty
ticket-id list analyzes nothing — the run completes immediately with
status completed, zero analyses and the empty-batch summary, and one
such run record is persisted — while omitting the parameter selects all
tickets, and the API client keeps the two cases distinct on the wire
(`[]` versus `null`). -/
theorem execute_empty_list_analyzes_nothing
    (store : List Ticket) (classify : Ticket → ClassificationOutcome)
    (runs : List RunRecord) (_hne : store ≠ []) :
    (execute store classify (some []) runs).1
      = .ok ⟨"completed", summarize [], []⟩ ∧
    (execute store classify (some []) runs).2
      = runs ++ [⟨"completed", summarize [], []⟩] ∧
    selectTickets store none = store ∧
    analyzeTicketsBody (some []) = some [] ∧
    analyzeTicketsBody none = none := by
  have hsel : selectTickets store (some []) = [] := by
    simp [selectTickets]
  have hv : ¬(validateIds store (some []) = false) := by
    simp [validateIds]
  refine ⟨?_, ?_, rfl, rfl, rfl⟩
  · simp [execute, hv, hsel, successes]
  · simp [execute, hv, hsel, successes]

/-- C5 (witness): on the one-ticket store, Execute([]) completes with
zero analyses and persists the empty-batch run, while an omitted
parameter selects the whole store. -/
theorem execute_empty_list_analyzes_nothing_witness :
    (execute [ticketW] classifyW (some []) []).1
      = .ok ⟨"completed", summarize [], []⟩ ∧
    (execute [ticketW] classifyW (some []) []).2
      = [] ++ [⟨"completed", summarize [], []⟩] ∧
    selectTickets [ticketW] none = [ticketW] ∧
    analyzeTicketsBody (some []) = some [] ∧
    analyzeTicketsBody none = none :=
  execute_empty_list_analyzes_nothing [ticketW] classifyW []
    (by decide)

end TicketAnalysisSpec
